import Mathlib

/-!
Shallow embedding of the girder "challenge" plugin (src/server), covering the
Challenge and Phase models (src/server/models/challenge.py, phase.py) and the
REST handlers that carry model-relevant policy (src/server/rest/challenge.py,
phase.py).  The host platform's document store is modelled as an explicit
`Store` value threaded through every operation; host primitives that the
plugin consumes (collection/folder/group creation, document removal, progress
reporting, `json.loads`, Python's `str.strip`) are modelled explicitly where
their behaviour is observable.
-/

namespace ChallengePlugin

/-- Identifiers handed out by the host document store (ObjectIds). -/
abbrev DocId := Nat

/-- girder.constants.AccessType: ordinal permission levels. -/
def AccessTypeNONE : Int := -1

/-- girder.constants.AccessType.READ. -/
def AccessTypeREAD : Int := 0

/-- girder.constants.AccessType.WRITE. -/
def AccessTypeWRITE : Int := 1

/-- girder.constants.AccessType.ADMIN. -/
def AccessTypeADMIN : Int := 2

/-- Models Python's `str.strip()` (no arguments): remove leading and trailing
whitespace characters. -/
def pyStrip (s : String) : String :=
  String.mk (((s.data.dropWhile Char.isWhitespace).reverse.dropWhile
    Char.isWhitespace).reverse)

/-- An access-control list attached to an access-controlled document:
per-user and per-group grants (id, level). -/
structure AccessList where
  users : List (DocId × Int)
  groups : List (DocId × Int)
deriving DecidableEq

/-- A stored collection document (host model, only the fields this plugin
reads or writes). -/
structure Collection where
  _id : DocId
  name : String
  creatorId : DocId
  public : Bool
deriving DecidableEq

/-- A stored folder document (host model, only the fields this plugin uses). -/
structure Folder where
  _id : DocId
  name : String
  parentId : DocId
  parentType : String
  public : Bool
  creatorId : DocId
deriving DecidableEq

/-- A stored group document (host model). -/
structure Group where
  _id : DocId
  name : String
  creatorId : DocId
  public : Bool
deriving DecidableEq

/-- A stored challenge document, as assembled by `Challenge.createChallenge`
(src/server/models/challenge.py lines 104-125): name, creatorId,
collectionId, description, instructions, created, plus the public flag and
access list written by `setPublic` / `setUserAccess`. -/
structure ChallengeRec where
  _id : DocId
  name : String
  description : String
  instructions : String
  creatorId : DocId
  collectionId : DocId
  created : Nat
  public : Bool
  acl : AccessList
deriving DecidableEq

/-- A stored phase document, as assembled by `Phase.createPhase`
(src/server/models/phase.py lines 115-131). -/
structure PhaseRec where
  _id : DocId
  name : String
  description : String
  instructions : String
  active : Bool
  challengeId : DocId
  folderId : DocId
  participantGroupId : DocId
  groundTruthFolderId : DocId
  created : Nat
  public : Bool
  acl : AccessList
deriving DecidableEq

/-- The host document store, as seen by this plugin: one list per model,
a fresh-id counter, a clock (for `datetime.utcnow()`), and a counter of
progress increments reported through the injected progress context. -/
structure Store where
  challenges : List ChallengeRec
  phases : List PhaseRec
  collections : List Collection
  folders : List Folder
  groups : List Group
  nextId : DocId
  clock : Nat
  progress : Nat
deriving DecidableEq

/-- Observable events emitted during a cascading delete: base-model record
deletions and progress updates, in program order. -/
inductive Event where
  | deletedPhaseRecord (id : DocId)
  | deletedChallengeRecord (id : DocId)
  | progressUpdate (message : String)
deriving DecidableEq

/-- Model of `Phase.remove` (src/server/models/phase.py lines 59-61):
`AccessControlledModel.remove(self, phase, progress=progress)` deletes the
phase's access-controlled record from the store, then
`progress.update(increment=1, message='Deleted phase ' + phase['name'])`
reports one progress increment.  Nothing else is touched. -/
def Phase.remove (st : Store) (phase : PhaseRec) : Store × List Event :=
  ({ st with
      phases := st.phases.filter (fun q => q._id != phase._id),
      progress := st.progress + 1 },
   [Event.deletedPhaseRecord phase._id,
    Event.progressUpdate ("Deleted phase " ++ phase.name)])

/-- The trace of events a single `Phase.remove` emits. -/
def phaseTrace (p : PhaseRec) : List Event :=
  [Event.deletedPhaseRecord p._id,
   Event.progressUpdate ("Deleted phase " ++ p.name)]

/-- The per-phase loop of `Challenge.remove` (src/server/models/challenge.py
lines 95-96): `for phase in phases: self.model('phase', 'challenge')
.remove(phase, progress=progress)`, accumulating the store and the trace. -/
def Challenge.removePhasesLoop (acc : Store × List Event)
    (phs : List PhaseRec) : Store × List Event :=
  phs.foldl (fun acc p =>
    let r := Phase.remove acc.1 p
    (r.1, acc.2 ++ r.2)) acc

/-- Model of `Challenge.remove` (src/server/models/challenge.py lines 90-102): finds
all phases with this challengeId, removes each via `Phase.remove` (one
progress increment each), then deletes the challenge's access-controlled
record, then reports one final progress increment. -/
def Challenge.remove (st : Store) (challenge : ChallengeRec) :
    Store × List Event :=
  let phases := st.phases.filter (fun p => p.challengeId == challenge._id)
  let acc := Challenge.removePhasesLoop (st, []) phases
  ({ acc.1 with
      challenges := acc.1.challenges.filter (fun d => d._id != challenge._id),
      progress := acc.1.progress + 1 },
   acc.2 ++ [Event.deletedChallengeRecord challenge._id,
             Event.progressUpdate ("Deleted challenge " ++ challenge.name)])

/-- Model of `Phase.subtreeCount` (src/server/models/phase.py lines 55-57): constant 1. -/
def Phase.subtreeCount (_phase : PhaseRec) : Nat := 1

/-- Model of `Challenge.subtreeCount` (src/server/models/challenge.py lines 51-64):
starts at 1, then adds `Phase.subtreeCount` for each phase with this
challengeId. -/
def Challenge.subtreeCount (st : Store) (challenge : ChallengeRec) : Nat :=
  (st.phases.filter (fun p => p.challengeId == challenge._id)).foldl
    (fun count phase => count + Phase.subtreeCount phase) 1

theorem removePhasesLoop_spec (phs : List PhaseRec) (st : Store)
    (evs : List Event) :
    Challenge.removePhasesLoop (st, evs) phs =
      ({ st with
          phases := st.phases.filter
            (fun q => phs.all (fun p => q._id != p._id)),
          progress := st.progress + phs.length },
       evs ++ phs.flatMap phaseTrace) := by
  induction phs generalizing st evs with
  | nil =>
    simp [Challenge.removePhasesLoop]
  | cons p rest ih =>
    simp only [Challenge.removePhasesLoop, List.foldl_cons] at *
    rw [ih]
    simp only [Prod.mk.injEq]
    refine ⟨?_, ?_⟩
    · simp only [Phase.remove, List.filter_filter, List.all_cons,
        List.length_cons, Store.mk.injEq, true_and, and_true]
      refine ⟨?_, by omega⟩
      congr 1
      funext q
      rw [Bool.and_comm]
    · simp [Phase.remove, phaseTrace]

theorem subtreeCount_foldl (l : List PhaseRec) (n : Nat) :
    l.foldl (fun count phase => count + Phase.subtreeCount phase) n =
      n + l.length := by
  induction l generalizing n with
  | nil => simp
  | cons p rest ih =>
    rw [List.foldl_cons, ih]
    simp only [Phase.subtreeCount, List.length_cons]
    omega

theorem sum_map_subtreeCount (l : List PhaseRec) :
    (l.map Phase.subtreeCount).sum = l.length := by
  induction l with
  | nil => simp
  | cons p rest ih =>
    simp only [List.map_cons, List.sum_cons, Phase.subtreeCount, ih,
      List.length_cons]
    omega

/-- C1: `Challenge.remove` first removes every phase whose challengeId equals
the challenge's id via `Phase.remove` (one progress increment per phase, in
order), then deletes the challenge record itself and reports one final
progress increment; afterwards no phase with the deleted challengeId remains
in the store. -/
theorem challenge_remove_cascade (st : Store) (c : ChallengeRec) :
    ((Challenge.remove st c).1.phases.all
      (fun q => q.challengeId != c._id)) = true
    ∧ (Challenge.remove st c).1.progress =
        st.progress +
          (st.phases.filter (fun p => p.challengeId == c._id)).length + 1
    ∧ (Challenge.remove st c).1.challenges =
        st.challenges.filter (fun d => d._id != c._id)
    ∧ (Challenge.remove st c).2 =
        (st.phases.filter (fun p => p.challengeId == c._id)).flatMap phaseTrace
          ++ [Event.deletedChallengeRecord c._id,
              Event.progressUpdate ("Deleted challenge " ++ c.name)] := by
  have h := removePhasesLoop_spec
    (st.phases.filter (fun p => p.challengeId == c._id)) st []
  refine ⟨?_, ?_, ?_, ?_⟩
  · simp only [Challenge.remove, h, List.all_eq_true]
    intro q hq
    rw [List.mem_filter] at hq
    rcases hq with ⟨hq1, hq2⟩
    rw [List.all_eq_true] at hq2
    by_contra hcontra
    simp only [bne_iff_ne, ne_eq, not_not] at hcontra
    have hqmem : q ∈ st.phases.filter (fun p => p.challengeId == c._id) := by
      rw [List.mem_filter]
      exact ⟨hq1, by simp [hcontra]⟩
    have := hq2 q hqmem
    simp at this
  · simp [Challenge.remove, h]
  · simp [Challenge.remove, h]
  · simp [Challenge.remove, h]

/-- C4: `Challenge.subtreeCount` equals 1 plus the sum of
`Phase.subtreeCount` over the phases whose challengeId is the challenge's
id, and since `Phase.subtreeCount` is constantly 1, it equals 1 + N where N
is the number of such phases. -/
theorem challenge_subtreeCount_spec (st : Store) (c : ChallengeRec) :
    Challenge.subtreeCount st c =
      1 + ((st.phases.filter (fun p => p.challengeId == c._id)).map
        Phase.subtreeCount).sum
    ∧ Challenge.subtreeCount st c =
        1 + (st.phases.filter (fun p => p.challengeId == c._id)).length := by
  constructor
  · simp [Challenge.subtreeCount, subtreeCount_foldl, sum_map_subtreeCount,
      Nat.add_comm]
  · simp [Challenge.subtreeCount, subtreeCount_foldl, Nat.add_comm]

/-- C10: `Phase.remove` deletes only the phase's access-controlled record
and reports exactly one progress increment; folders (the phase's folder and
ground-truth folder among them), groups (the participant group among them),
collections and challenges are left unchanged. -/
theorem phase_remove_frame (st : Store) (p : PhaseRec) :
    (Phase.remove st p).1.phases =
      st.phases.filter (fun q => q._id != p._id)
    ∧ (Phase.remove st p).1.progress = st.progress + 1
    ∧ (Phase.remove st p).1.folders = st.folders
    ∧ (Phase.remove st p).1.groups = st.groups
    ∧ (Phase.remove st p).1.collections = st.collections
    ∧ (Phase.remove st p).1.challenges = st.challenges
    ∧ ((Phase.remove st p).2.filter
        (fun e => match e with
          | Event.progressUpdate _ => true
          | _ => false)).length = 1 := by
  refine ⟨rfl, rfl, rfl, rfl, rfl, rfl, rfl⟩

/-- A challenge document as handed to `Challenge.validate`: the fields the
validator reads or writes.  `_id` is present on update, absent on first
save; `description` / `instructions` keys may be absent (`doc.get`). -/
structure ChallengeDoc where
  _id : Option DocId
  name : String
  description : Option String
  instructions : Option String
deriving DecidableEq

/-- Host exception `girder.models.model_base.ValidationException`: carries a message and the
offending field name. -/
structure ValidationException where
  message : String
  field : String
deriving DecidableEq

/-- Python `if doc.get(key): doc[key] = doc[key].strip()`: the value is
stripped only when the key is present with a truthy (non-empty) string. -/
def truthyStrip : Option String → Option String
  | none => none
  | some s => if s == "" then some s else some (pyStrip s)

/-- The duplicate-name query of `Challenge.validate`
(src/server/models/challenge.py lines 77-83): `findOne` on
`{name: doc.name}`, adding `{_id: {$ne: doc._id}}` when the doc has an id. -/
def Challenge.findOneByName (st : Store) (nm : String)
    (excludeId : Option DocId) : Option ChallengeRec :=
  st.challenges.find? (fun c =>
    c.name == nm &&
      (match excludeId with
       | some i => c._id != i
       | none => true))

/-- Model of `Challenge.validate` (src/server/models/challenge.py lines 66-88): strips
name (and description/instructions when truthy), rejects an empty name,
rejects a name already used by another challenge, else returns the stripped
doc. -/
def Challenge.validate (st : Store) (doc : ChallengeDoc) :
    Except ValidationException ChallengeDoc :=
  let doc : ChallengeDoc := { doc with
    name := pyStrip doc.name,
    description := truthyStrip doc.description,
    instructions := truthyStrip doc.instructions }
  if doc.name == "" then
    .error ⟨"Challenge name must not be empty.", "name"⟩
  else if (Challenge.findOneByName st doc.name doc._id).isSome then
    .error ⟨"A challenge with that name already exists.", "name"⟩
  else
    .ok doc

/-- Host primitive `Collection.createCollection` (girder core): creates and
persists a fresh collection with the given name, creator and public flag. -/
def Collection.createCollection (st : Store) (nm : String)
    (creatorId : DocId) (pub : Bool) : Store × Collection :=
  let col : Collection :=
    { _id := st.nextId, name := nm, creatorId := creatorId, public := pub }
  ({ st with collections := st.collections ++ [col],
             nextId := st.nextId + 1 }, col)

/-- Model of `Challenge.createChallenge` (src/server/models/challenge.py lines
104-125): finds a collection named `name`, creating one if absent; builds
the challenge document with the creator's ADMIN grant and the public flag;
then `save` validates (which may raise) and inserts.  Returns the outcome
together with the store as left by the call, whether or not it raised. -/
def Challenge.createChallenge (st : Store) (nm : String) (creatorId : DocId)
    (description instructions : String) (pub : Bool) :
    Except ValidationException ChallengeRec × Store :=
  let stcol : Store × Collection :=
    match st.collections.find? (fun col => col.name == nm) with
    | some col => (st, col)
    | none => Collection.createCollection st nm creatorId pub
  let st1 := stcol.1
  let doc : ChallengeDoc :=
    { _id := none, name := nm, description := some description,
      instructions := some instructions }
  match Challenge.validate st1 doc with
  | .error e => (.error e, st1)
  | .ok doc2 =>
    let chal : ChallengeRec :=
      { _id := st1.nextId, name := doc2.name,
        description := doc2.description.getD "",
        instructions := doc2.instructions.getD "",
        creatorId := creatorId, collectionId := stcol.2._id,
        created := st1.clock, public := pub,
        acl := { users := [(creatorId, AccessTypeADMIN)], groups := [] } }
    (.ok chal,
     { st1 with challenges := st1.challenges ++ [chal],
                nextId := st1.nextId + 1 })

theorem truthyStrip_eq_map (o : Option String) :
    truthyStrip o = o.map pyStrip := by
  match o with
  | none => rfl
  | some s =>
    simp only [truthyStrip, Option.map_some]
    by_cases h : s = ""
    · subst h
      rfl
    · simp [h]

theorem challenge_validate_cases (st : Store) (doc : ChallengeDoc) :
    (pyStrip doc.name = "" →
      Challenge.validate st doc =
        .error ⟨"Challenge name must not be empty.", "name"⟩)
    ∧ (pyStrip doc.name ≠ "" →
       (∃ c ∈ st.challenges, c.name = pyStrip doc.name ∧
          doc._id ≠ some c._id) →
      Challenge.validate st doc =
        .error ⟨"A challenge with that name already exists.", "name"⟩)
    ∧ (pyStrip doc.name ≠ "" →
       (¬ ∃ c ∈ st.challenges, c.name = pyStrip doc.name ∧
          doc._id ≠ some c._id) →
      Challenge.validate st doc =
        .ok { doc with
          name := pyStrip doc.name,
          description := doc.description.map pyStrip,
          instructions := doc.instructions.map pyStrip }) := by
  have hq : ∀ c : ChallengeRec,
      ((c.name == pyStrip doc.name &&
        (match doc._id with
         | some i => c._id != i
         | none => true)) = true)
      ↔ (c.name = pyStrip doc.name ∧ doc._id ≠ some c._id) := by
    intro c
    match h : doc._id with
    | none => simp
    | some i =>
      simp only [Bool.and_eq_true, beq_iff_eq, bne_iff_ne, ne_eq,
        Option.some.injEq]
      constructor
      · rintro ⟨h1, h2⟩
        exact ⟨h1, fun he => h2 he.symm⟩
      · rintro ⟨h1, h2⟩
        exact ⟨h1, fun he => h2 he.symm⟩
  have hfind : (Challenge.findOneByName st (pyStrip doc.name)
      doc._id).isSome
      ↔ ∃ c ∈ st.challenges, c.name = pyStrip doc.name ∧
          doc._id ≠ some c._id := by
    rw [Challenge.findOneByName, List.find?_isSome]
    constructor
    · rintro ⟨c, hc, hp⟩
      exact ⟨c, hc, (hq c).mp hp⟩
    · rintro ⟨c, hc, hp⟩
      exact ⟨c, hc, (hq c).mpr hp⟩
  refine ⟨?_, ?_, ?_⟩
  · intro h
    simp [Challenge.validate, h]
  · intro hne hdup
    rw [← hfind] at hdup
    simp only [Challenge.validate]
    rw [if_neg (by simpa using hne), if_pos (by simpa using hdup)]
  · intro hne hnodup
    rw [← hfind] at hnodup
    simp only [Challenge.validate]
    rw [if_neg (by simpa using hne), if_neg (by simpa using hnodup)]
    rw [truthyStrip_eq_map, truthyStrip_eq_map]

/-- C2: `Challenge.validate` strips name, description and instructions;
raises a ValidationException on field `name` when the stripped name is empty
(all-whitespace included); raises a ValidationException on field `name` when
a different challenge (by `_id`) already has exactly the stripped name;
otherwise returns the stripped doc. -/
theorem challenge_validate_spec (st : Store) (doc : ChallengeDoc) :
    (pyStrip doc.name = "" →
      Challenge.validate st doc =
        .error ⟨"Challenge name must not be empty.", "name"⟩)
    ∧ (pyStrip doc.name ≠ "" →
       (∃ c ∈ st.challenges, c.name = pyStrip doc.name ∧
          doc._id ≠ some c._id) →
      Challenge.validate st doc =
        .error ⟨"A challenge with that name already exists.", "name"⟩)
    ∧ (pyStrip doc.name ≠ "" →
       (¬ ∃ c ∈ st.challenges, c.name = pyStrip doc.name ∧
          doc._id ≠ some c._id) →
      Challenge.validate st doc =
        .ok { doc with
          name := pyStrip doc.name,
          description := doc.description.map pyStrip,
          instructions := doc.instructions.map pyStrip }) :=
  challenge_validate_cases st doc

/-- A store holding one challenge named "Taken", used to instantiate the
validation theorems on concrete input. -/
def chalTaken : ChallengeRec :=
  { _id := 1, name := "Taken", description := "", instructions := "",
    creatorId := 2, collectionId := 3, created := 0, public := true,
    acl := { users := [], groups := [] } }

def storeTaken : Store :=
  { challenges := [chalTaken],
    phases := [], collections := [], folders := [], groups := [],
    nextId := 10, clock := 0, progress := 0 }

/-- Witness for C2 at concrete input: an all-whitespace name is rejected, a
duplicate of "Taken" (post-strip) is rejected, and a fresh name is returned
stripped. -/
theorem challenge_validate_spec_witness :
    Challenge.validate storeTaken
      { _id := none, name := "   ", description := none,
        instructions := none } =
      .error ⟨"Challenge name must not be empty.", "name"⟩
    ∧ Challenge.validate storeTaken
      { _id := none, name := " Taken ", description := none,
        instructions := none } =
      .error ⟨"A challenge with that name already exists.", "name"⟩
    ∧ Challenge.validate storeTaken
      { _id := none, name := " New ", description := some "  d ",
        instructions := none } =
      .ok { _id := none, name := "New", description := some "d",
            instructions := none } :=
  ⟨(challenge_validate_spec storeTaken _).1 (by decide),
   (challenge_validate_spec storeTaken _).2.1 (by decide)
     ⟨chalTaken, by simp [storeTaken], by decide, by simp⟩,
   ((challenge_validate_spec storeTaken
      { _id := none, name := " New ", description := some "  d ",
        instructions := none }).2.2 (by decide)
      (by
        rintro ⟨c, hc, h1, h2⟩
        simp only [storeTaken, List.mem_singleton] at hc
        subst hc
        exact absurd h1 (by decide))).trans
     (congrArg Except.ok (by decide))⟩

theorem createChallenge_duplicate_cases (st : Store) (nm : String)
    (creatorId : DocId) (d i : String) (pub : Bool)
    (hne : pyStrip nm ≠ "")
    (hdup : ∃ c ∈ st.challenges, c.name = pyStrip nm) :
    ((Challenge.createChallenge st nm creatorId d i pub).1 =
        .error ⟨"A challenge with that name already exists.", "name"⟩)
    ∧ (Challenge.createChallenge st nm creatorId d i pub).2.challenges =
        st.challenges
    ∧ ((st.collections.find? (fun col => col.name == nm)).isSome →
        (Challenge.createChallenge st nm creatorId d i pub).2 = st)
    ∧ ((st.collections.find? (fun col => col.name == nm)) = none →
        (Challenge.createChallenge st nm creatorId d i pub).2 =
          { st with
              collections := st.collections ++
                [{ _id := st.nextId, name := nm, creatorId := creatorId,
                   public := pub }],
              nextId := st.nextId + 1 }) := by
  have hval : ∀ st1 : Store, st1.challenges = st.challenges →
      Challenge.validate st1
        { _id := none, name := nm, description := some d,
          instructions := some i } =
        .error ⟨"A challenge with that name already exists.", "name"⟩ := by
    intro st1 hch
    rcases hdup with ⟨c, hc, hcname⟩
    exact (challenge_validate_cases st1 _).2.1 hne
      ⟨c, by rw [hch]; exact hc, hcname, by simp⟩
  rcases hcol : st.collections.find? (fun col => col.name == nm) with _ | col
  · have h := hval
      { st with
          collections := st.collections ++
            [{ _id := st.nextId, name := nm, creatorId := creatorId,
               public := pub }],
          nextId := st.nextId + 1 } rfl
    refine ⟨?_, ?_, ?_, ?_⟩
    · simp [Challenge.createChallenge, hcol, Collection.createCollection, h]
    · simp [Challenge.createChallenge, hcol, Collection.createCollection, h]
    · intro hsome
      rw [hcol] at hsome
      simp at hsome
    · intro _
      simp [Challenge.createChallenge, hcol, Collection.createCollection, h]
  · have h := hval st rfl
    refine ⟨?_, ?_, ?_, ?_⟩
    · simp [Challenge.createChallenge, hcol, h]
    · simp [Challenge.createChallenge, hcol, h]
    · intro _
      simp [Challenge.createChallenge, hcol, h]
    · intro hnone
      rw [hcol] at hnone
      simp at hnone

/-- A store holding a challenge named "X" but no collection at all (for
example because the challenge was renamed after creation via
`PUT /challenge/{id}`): the collection find-or-create step of
`createChallenge` runs before validation. -/
def chalRenamedX : ChallengeRec :=
  { _id := 0, name := "X", description := "", instructions := "",
    creatorId := 7, collectionId := 5, created := 0, public := true,
    acl := { users := [], groups := [] } }

def storeRenamed : Store :=
  { challenges := [chalRenamedX],
    phases := [], collections := [], folders := [], groups := [],
    nextId := 9, clock := 3, progress := 0 }

/-- Counterexample to C9 as stated: on `storeRenamed`,
`createChallenge "X"` raises the duplicate-name validation failure, yet the
store is NOT left unchanged — a new collection named "X" was created and
persisted before validation ran. -/
theorem createChallenge_duplicate_counterexample :
    ((Challenge.createChallenge storeRenamed "X" 7 "" "" true).1 =
      .error ⟨"A challenge with that name already exists.", "name"⟩)
    ∧ (Challenge.createChallenge storeRenamed "X" 7 "" "" true).2 ≠
        storeRenamed
    ∧ (Challenge.createChallenge storeRenamed "X" 7 "" "" true).2.collections
        = [{ _id := 9, name := "X", creatorId := 7, public := true }] := by
  refine ⟨rfl, by decide, rfl⟩

/-- C9 (amended): errors outside the createPhase/remove cascades are raised
before the challenge record itself is persisted — `createChallenge` with a
duplicate name raises a validation failure and persists no new challenge
record, and when a collection with that name already exists the store is
left entirely unchanged; but the collection find-or-create step runs before
validation, so when no collection with that name exists, a new collection is
created and remains persisted despite the failure. -/
theorem createChallenge_duplicate_spec (st : Store) (nm : String)
    (creatorId : DocId) (d i : String) (pub : Bool)
    (hne : pyStrip nm ≠ "")
    (hdup : ∃ c ∈ st.challenges, c.name = pyStrip nm) :
    ((Challenge.createChallenge st nm creatorId d i pub).1 =
        .error ⟨"A challenge with that name already exists.", "name"⟩)
    ∧ (Challenge.createChallenge st nm creatorId d i pub).2.challenges =
        st.challenges
    ∧ ((st.collections.find? (fun col => col.name == nm)).isSome →
        (Challenge.createChallenge st nm creatorId d i pub).2 = st)
    ∧ ((st.collections.find? (fun col => col.name == nm)) = none →
        (Challenge.createChallenge st nm creatorId d i pub).2 =
          { st with
              collections := st.collections ++
                [{ _id := st.nextId, name := nm, creatorId := creatorId,
                   public := pub }],
              nextId := st.nextId + 1 }) :=
  createChallenge_duplicate_cases st nm creatorId d i pub hne hdup

/-- Witness for the amended C9 at concrete input: on `storeTaken` (which
still has no collection), creating a challenge named " Taken " fails
validation, persists no challenge record, and persists one new collection. -/
theorem createChallenge_duplicate_spec_witness :
    ((Challenge.createChallenge storeTaken " Taken " 2 "" "" true).1 =
      .error ⟨"A challenge with that name already exists.", "name"⟩)
    ∧ (Challenge.createChallenge storeTaken " Taken " 2 "" "" true).2.challenges
        = storeTaken.challenges
    ∧ (Challenge.createChallenge storeTaken " Taken " 2 "" "" true).2 =
        { storeTaken with
            collections := storeTaken.collections ++
              [{ _id := storeTaken.nextId, name := " Taken ",
                 creatorId := 2, public := true }],
            nextId := storeTaken.nextId + 1 } := by
  have h := createChallenge_duplicate_spec storeTaken " Taken " 2 "" "" true
    (by decide) ⟨chalTaken, by simp [storeTaken], by decide⟩
  exact ⟨h.1, h.2.1, h.2.2.2 (by decide)⟩

/-- Host primitive `Folder.createFolder` (girder core): creates and persists
a fresh folder under the given parent.  `allowRename=True` resolves a name
collision by renaming, which no property here observes; the requested name
is stored. -/
def Folder.createFolder (st : Store) (parentId : DocId)
    (parentType nm : String) (pub : Bool) (creatorId : DocId) :
    Store × Folder :=
  let f : Folder := { _id := st.nextId, name := nm, parentId := parentId,
                      parentType := parentType, public := pub,
                      creatorId := creatorId }
  ({ st with folders := st.folders ++ [f], nextId := st.nextId + 1 }, f)

/-- Host primitive `Group.createGroup` (girder core): creates and persists a
fresh group with the given name, creator and public flag. -/
def Group.createGroup (st : Store) (nm : String) (creatorId : DocId)
    (pub : Bool) : Store × Group :=
  let g : Group := { _id := st.nextId, name := nm, creatorId := creatorId,
                     public := pub }
  ({ st with groups := st.groups ++ [g], nextId := st.nextId + 1 }, g)

/-- Model of `Phase.validate` (src/server/models/phase.py lines 49-53):
rejects a missing or empty name (`not doc.get('name')`). -/
def Phase.validate (doc : PhaseRec) : Except ValidationException PhaseRec :=
  if doc.name == "" then .error ⟨"Phase name must not be empty.", "name"⟩
  else .ok doc

/-- Model of `Phase.createPhase` (src/server/models/phase.py lines 63-131):
loads the challenge's collection; creates the phase folder under it; creates
a private "Ground truth" sub-folder unless one was supplied; resolves the
participant group — when none is supplied, looks up a group named
`challenge.name ++ " " ++ name ++ " participants"` and creates one with
exactly that name only when the lookup finds nothing; assembles the phase
record with the creator's ADMIN grant and the group's READ grant; then
`save` validates and inserts.  Returns the outcome and the store as left by
the call. -/
def Phase.createPhase (st : Store) (name : String) (challenge : ChallengeRec)
    (creatorId : DocId) (description instructions : String)
    (active pub : Bool) (participantGroup : Option Group)
    (groundTruthFolder : Option Folder) :
    Except ValidationException PhaseRec × Store :=
  let r1 := Folder.createFolder st challenge.collectionId "collection" name
    pub creatorId
  let st1 := r1.1
  let folder := r1.2
  let r2 : Store × Folder :=
    match groundTruthFolder with
    | some f => (st1, f)
    | none => Folder.createFolder st1 folder._id "folder" "Ground truth"
        false creatorId
  let st2 := r2.1
  let gtFolder := r2.2
  let r3 : Store × Group :=
    match participantGroup with
    | some g => (st2, g)
    | none =>
      let groupName := challenge.name ++ " " ++ name ++ " participants"
      match st2.groups.find? (fun g => g.name == groupName) with
      | some g => (st2, g)
      | none => Group.createGroup st2 groupName creatorId pub
  let st3 := r3.1
  let pg := r3.2
  let phase : PhaseRec :=
    { _id := st3.nextId, name := name, description := description,
      instructions := instructions, active := active,
      challengeId := challenge._id, folderId := folder._id,
      participantGroupId := pg._id, groundTruthFolderId := gtFolder._id,
      created := st3.clock, public := pub,
      acl := { users := [(creatorId, AccessTypeADMIN)],
               groups := [(pg._id, AccessTypeREAD)] } }
  match Phase.validate phase with
  | .error e => (.error e, st3)
  | .ok phase2 =>
    (.ok phase2,
     { st3 with phases := st3.phases ++ [phase2], nextId := st3.nextId + 1 })

/-- C3: when `createPhase` is called with `participantGroup=None` it looks
up a group named exactly `challenge.name ++ " " ++ name ++ " participants"`;
an existing group of that name is reused (no group is created), otherwise a
new group with exactly that name is created; when a group is supplied, the
groups store is untouched and the supplied group's id is stored as the
phase's participantGroupId. -/
theorem phase_createPhase_participantGroup (st : Store) (name : String)
    (challenge : ChallengeRec) (creatorId : DocId) (d i : String)
    (active pub : Bool) (gtf : Option Folder) (g0 : Group) :
    (∀ g, st.groups.find?
        (fun x => x.name ==
          challenge.name ++ " " ++ name ++ " participants") = some g →
      (Phase.createPhase st name challenge creatorId d i active pub none
        gtf).2.groups = st.groups
      ∧ (name ≠ "" →
          ((Phase.createPhase st name challenge creatorId d i active pub none
            gtf).1.map (fun ph => ph.participantGroupId)) = .ok g._id))
    ∧ (st.groups.find?
        (fun x => x.name ==
          challenge.name ++ " " ++ name ++ " participants") = none →
      ∃ gid,
        (Phase.createPhase st name challenge creatorId d i active pub none
          gtf).2.groups = st.groups ++
            [{ _id := gid,
               name := challenge.name ++ " " ++ name ++ " participants",
               creatorId := creatorId, public := pub }]
        ∧ (name ≠ "" →
            ((Phase.createPhase st name challenge creatorId d i active pub
              none gtf).1.map (fun ph => ph.participantGroupId)) = .ok gid))
    ∧ ((Phase.createPhase st name challenge creatorId d i active pub
          (some g0) gtf).2.groups = st.groups
      ∧ (name ≠ "" →
          ((Phase.createPhase st name challenge creatorId d i active pub
            (some g0) gtf).1.map (fun ph => ph.participantGroupId)) =
            .ok g0._id)) := by
  refine ⟨?_, ?_, ?_⟩
  · intro g hg
    rcases gtf with _ | f
    all_goals
      refine ⟨?_, ?_⟩
      · simp [Phase.createPhase, Folder.createFolder, hg, Phase.validate]
        by_cases hn : name = "" <;> simp [hn]
      · intro hname
        simp [Phase.createPhase, Folder.createFolder, hg, Phase.validate,
          hname, Except.map]
  · intro hg
    rcases gtf with _ | f
    · refine ⟨st.nextId + 2, ?_, ?_⟩
      · simp [Phase.createPhase, Folder.createFolder, hg,
          Group.createGroup, Phase.validate]
        by_cases hn : name = "" <;> simp [hn]
      · intro hname
        simp [Phase.createPhase, Folder.createFolder, hg,
          Group.createGroup, Phase.validate, hname, Except.map]
    · refine ⟨st.nextId + 1, ?_, ?_⟩
      · simp [Phase.createPhase, Folder.createFolder, hg,
          Group.createGroup, Phase.validate]
        by_cases hn : name = "" <;> simp [hn]
      · intro hname
        simp [Phase.createPhase, Folder.createFolder, hg,
          Group.createGroup, Phase.validate, hname, Except.map]
  · rcases gtf with _ | f
    all_goals
      refine ⟨?_, ?_⟩
      · simp [Phase.createPhase, Folder.createFolder, Phase.validate]
        by_cases hn : name = "" <;> simp [hn]
      · intro hname
        simp [Phase.createPhase, Folder.createFolder, Phase.validate,
          hname, Except.map]

def groupTrain : Group :=
  { _id := 4, name := "Chal Train participants", creatorId := 2,
    public := true }

def storeWithGroup : Store :=
  { challenges := [], phases := [], collections := [], folders := [],
    groups := [groupTrain], nextId := 20, clock := 0, progress := 0 }

def chalChal : ChallengeRec :=
  { _id := 11, name := "Chal", description := "", instructions := "",
    creatorId := 2, collectionId := 12, created := 0, public := true,
    acl := { users := [], groups := [] } }

/-- Witness for C3 at concrete input: creating phase "Train" under
challenge "Chal" with no supplied group reuses the persisted group named
"Chal Train participants" (id 4): the groups store is unchanged and the new
phase's participantGroupId is 4. -/
theorem phase_createPhase_participantGroup_witness :
    (Phase.createPhase storeWithGroup "Train" chalChal 2 "" "" false true
      none none).2.groups = storeWithGroup.groups
    ∧ ((Phase.createPhase storeWithGroup "Train" chalChal 2 "" "" false true
      none none).1.map (fun ph => ph.participantGroupId)) = .ok 4 :=
  let h := (phase_createPhase_participantGroup storeWithGroup "Train"
    chalChal 2 "" "" false true none groupTrain).1 groupTrain (by decide)
  ⟨h.1, h.2 (by decide)⟩

/-- Modelled from the spec: `Phase.filter` — recorded by the spec as an
identity passthrough, explicitly marked unfinished in the original.  Its
body is not under src (src holds only the `exposeFields` declaration in
`Phase.initialize`, src/server/models/phase.py lines 32-35, and the REST
callers). -/
def Phase.filter (phase : PhaseRec) : PhaseRec := phase

/-- Model of `getPhase` (src/server/rest/phase.py lines 173-177): returns
the phase passed through the phase model's filter. -/
def Rest.Phase.getPhase (phase : PhaseRec) : PhaseRec := Phase.filter phase

/-- A user document; the `groups` key (list of ids of groups the user is a
tracked member of) may be absent. -/
structure UserRec where
  _id : DocId
  groups : Option (List DocId)
deriving DecidableEq

/-- Modelled from the spec: the host group model's `addUser` — joining adds
the user "to its participant group at READ level" and makes the user "a
tracked member of that group": the group id is appended to the user's
`groups` list and the user is granted the level on the group. -/
def Group.addUser (u : UserRec) (grants : List (DocId × Int)) (gid : DocId)
    (level : Int) : UserRec × List (DocId × Int) :=
  ({ u with groups := some (u.groups.getD [] ++ [gid]) },
   grants ++ [(u._id, level)])

/-- The guard of `joinPhase` (src/server/rest/phase.py line 192):
`'groups' not in user or participantGroupId not in user['groups']`. -/
def Rest.Phase.joinNeeded (u : UserRec) (gid : DocId) : Bool :=
  match u.groups with
  | none => true
  | some gs => !(gs.contains gid)

/-- Model of `joinPhase` (src/server/rest/phase.py lines 185-197): filters
the phase, and unless the user is already a tracked member of the phase's
participant group, loads the group and adds the user at READ level.
State: the user document and the participant group's user grants. -/
def Rest.Phase.joinPhase (u : UserRec) (grants : List (DocId × Int))
    (phase : PhaseRec) : UserRec × List (DocId × Int) :=
  let filtered := Phase.filter phase
  let gid := filtered.participantGroupId
  if Rest.Phase.joinNeeded u gid then
    Group.addUser u grants gid AccessTypeREAD
  else (u, grants)

/-- C5: joining a phase is idempotent — a second `joinPhase` for the same
user and phase leaves the user's group-membership state (and the group's
grants) exactly as after the first join, because the guard finds the user
already a tracked member and skips the add. -/
theorem joinPhase_idempotent (u : UserRec) (grants : List (DocId × Int))
    (p : PhaseRec) :
    Rest.Phase.joinPhase (Rest.Phase.joinPhase u grants p).1
      (Rest.Phase.joinPhase u grants p).2 p = Rest.Phase.joinPhase u grants p
    ∧ Rest.Phase.joinNeeded (Rest.Phase.joinPhase u grants p).1
        p.participantGroupId = false := by
  have key : Rest.Phase.joinNeeded (Rest.Phase.joinPhase u grants p).1
      p.participantGroupId = false := by
    rcases hg : u.groups with _ | gs
    · simp [Rest.Phase.joinPhase, Rest.Phase.joinNeeded, Phase.filter,
        Group.addUser, hg]
    · by_cases hmem : p.participantGroupId ∈ gs
      · simp [Rest.Phase.joinPhase, Rest.Phase.joinNeeded, Phase.filter,
          Group.addUser, hg, hmem]
      · simp [Rest.Phase.joinPhase, Rest.Phase.joinNeeded, Phase.filter,
          Group.addUser, hg, hmem]
  refine ⟨?_, key⟩
  conv_lhs => rw [Rest.Phase.joinPhase]
  simp only [Phase.filter]
  rw [key]
  simp

/-- The fields `Challenge.initialize` exposes at READ level
(src/server/models/challenge.py lines 36-38). -/
def challengeExposedFieldNames : List String :=
  ["_id", "creatorId", "collectionId", "name", "description", "instructions"]

/-- Modelled from the spec: the host `AccessControlledModel.filter` projects
a document to the model's exposed fields and adds the computed
`_accessLevel` for the requesting user.  Documents are association lists
from field name to value. -/
def filterDocFields (α : Type) (exposed : List String)
    (doc : List (String × α)) (accessLevel : α) : List (String × α) :=
  doc.filter (fun kv => exposed.contains kv.1) ++ [("_accessLevel", accessLevel)]

/-- Model of `filter(challenge, user)`: the host filter applied with the fields the
Challenge model exposes. -/
def Challenge.filterFields (α : Type) (doc : List (String × α))
    (accessLevel : α) : List (String × α) :=
  filterDocFields α challengeExposedFieldNames doc accessLevel

/-- C6: the result of filtering a challenge document contains no key outside
{_id, creatorId, collectionId, name, description, instructions,
_accessLevel}. -/
theorem challenge_filter_keys (α : Type) (doc : List (String × α)) (lvl : α) :
    (((Challenge.filterFields α doc lvl).map Prod.fst).all
      (fun k => (["_id", "creatorId", "collectionId", "name", "description",
        "instructions", "_accessLevel"]).contains k)) = true := by
  rw [List.all_eq_true]
  intro k hk
  rw [List.mem_map] at hk
  rcases hk with ⟨kv, hkv, hkeq⟩
  subst hkeq
  rw [Challenge.filterFields, filterDocFields, List.mem_append] at hkv
  rcases hkv with h | h
  · rw [List.mem_filter] at h
    have h2 : kv.1 ∈ challengeExposedFieldNames := by simpa using h.2
    simp only [challengeExposedFieldNames, List.mem_cons,
      List.not_mem_nil, or_false] at h2
    rcases h2 with h2 | h2 | h2 | h2 | h2 | h2 <;> rw [h2] <;> rfl
  · simp only [List.mem_singleton] at h
    rw [h]
    rfl

/-- C7: phase filtering is an identity passthrough — `getPhase` returns the
phase unchanged, every field included. -/
theorem phase_filter_passthrough (p : PhaseRec) :
    Rest.Phase.getPhase p = p ∧ Phase.filter p = p :=
  ⟨rfl, rfl⟩

/-- Outcome of a Python request handler: a returned value, a raised
`RestException` (the structured bad-request error), or a raised `NameError`
(an unresolvable name was evaluated). -/
inductive PyOutcome (α : Type) where
  | ok (val : α)
  | restException (message : String)
  | nameError (missing : String)
deriving DecidableEq

/-- The names bound at module level in src/server/rest/challenge.py (lines
20-26): `from girder.api.rest import Resource, loadmodel, RestException`
among them. -/
def restChallengeModuleNames : List String :=
  ["json", "access", "Description", "Resource", "loadmodel", "RestException",
   "AccessType", "ProgressContext"]

/-- The names bound at module level in src/server/rest/phase.py (lines
20-25): `from girder.api.rest import Resource, loadmodel` — `RestException`
is NOT among them. -/
def restPhaseModuleNames : List String :=
  ["json", "access", "Description", "Resource", "loadmodel", "AccessType"]

/-- Python evaluation of the statement `raise RestException(msg)`: the name
`RestException` is resolved against the module's namespace first; when the
module never bound it, evaluating the name raises `NameError` instead of the
intended exception. -/
def raiseRestExceptionStmt (α : Type) (moduleNames : List String)
    (msg : String) : PyOutcome α :=
  if moduleNames.contains "RestException" then .restException msg
  else .nameError "RestException"

/-- Model of `setAccessList(challenge, access, save=True)` together with the earlier
`setPublic(challenge, public)` (both are only persisted by this save):
replaces the stored challenge's ACL and public flag. -/
def Challenge.setAccessListSave (st : Store) (c : ChallengeRec) (pub : Bool)
    (acl : AccessList) : Store :=
  { st with challenges := st.challenges.map (fun d =>
      if d._id == c._id then { d with public := pub, acl := acl } else d) }

/-- Model of `setAccessList(phase, access, save=True)` together with the earlier
`setPublic(phase, public)`: replaces the stored phase's ACL and public
flag. -/
def Phase.setAccessListSave (st : Store) (p : PhaseRec) (pub : Bool)
    (acl : AccessList) : Store :=
  { st with phases := st.phases.map (fun d =>
      if d._id == p._id then { d with public := pub, acl := acl } else d) }

/-- Model of `updateAccess` (src/server/rest/challenge.py lines 103-116):
`parsedAccess` is the outcome of `json.loads(params['access'])` in the host
json module (`none` = the string was not parseable as JSON, i.e.
`ValueError`); on success the parsed ACL is applied and saved, on
`ValueError` the handler runs `raise RestException(...)`. -/
def Rest.Challenge.updateAccess (st : Store) (c : ChallengeRec) (pub : Bool)
    (parsedAccess : Option AccessList) : PyOutcome Store :=
  match parsedAccess with
  | some acl => .ok (Challenge.setAccessListSave st c pub acl)
  | none => raiseRestExceptionStmt Store restChallengeModuleNames
      "The access parameter must be JSON."

/-- Model of `updateAccess` (src/server/rest/phase.py lines 115-128): same
shape as the challenge handler, but evaluated in the rest/phase.py module
namespace, which never imported `RestException`. -/
def Rest.Phase.updateAccess (st : Store) (p : PhaseRec) (pub : Bool)
    (parsedAccess : Option AccessList) : PyOutcome Store :=
  match parsedAccess with
  | some acl => .ok (Phase.setAccessListSave st p pub acl)
  | none => raiseRestExceptionStmt Store restPhaseModuleNames
      "The access parameter must be JSON."

/-- C8 (documenting the code bug): on a non-JSON access parameter the
challenge handler raises the structured RestException, but the phase
handler raises NameError — rest/phase.py does not import `RestException` —
so the claim's "for both" fails for `PUT /challenge_phase/{id}/access`;
on valid JSON both handlers apply and save the parsed ACL. -/
theorem updateAccess_malformed_json (st : Store) (c : ChallengeRec)
    (p : PhaseRec) (pub pub2 : Bool) (acl : AccessList) :
    Rest.Challenge.updateAccess st c pub none =
      .restException "The access parameter must be JSON."
    ∧ Rest.Phase.updateAccess st p pub2 none = .nameError "RestException"
    ∧ restPhaseModuleNames.contains "RestException" = false
    ∧ Rest.Challenge.updateAccess st c pub (some acl) =
        .ok (Challenge.setAccessListSave st c pub acl)
    ∧ Rest.Phase.updateAccess st p pub2 (some acl) =
        .ok (Phase.setAccessListSave st p pub2 acl) :=
  ⟨rfl, rfl, rfl, rfl, rfl⟩
